import Mathlib

/-!
Verification of the language front-end: shallow embeddings of the intern
pool, arena allocator, diagnostic gate, parser error strategy, scope-graph
module discovery, import fixpoint, symbol lookup and the type checker,
with theorems settling the specification claims.
-/

namespace Lang

/-! ### Association-list maps

Model of `std::collections::HashMap` as used by the sources: `get` returns
the first binding of a key, `insert` overwrites the binding in place (the
sources only ever update keys obtained from a previous `get`). -/

def mapGet {α : Type} : List (Nat × α) → Nat → Option α
  | [], _ => none
  | (k, v) :: rest, key => if k = key then some v else mapGet rest key

def mapInsert {α : Type} : List (Nat × α) → Nat → α → List (Nat × α)
  | [], key, val => [(key, val)]
  | (k, v) :: rest, key, val =>
    if k = key then (k, val) :: rest else (k, v) :: mapInsert rest key val

/-- `mapInsert` is observed by `mapGet` at the same key. -/
theorem mapGet_mapInsert_self {α : Type} (m : List (Nat × α)) (k : Nat) (w : α) :
    mapGet (mapInsert m k w) k = some w := by
  induction m with
  | nil => simp [mapGet, mapInsert]
  | cons hd tl ih =>
    obtain ⟨k0, v0⟩ := hd
    by_cases hk : k0 = k
    · simp [mapGet, mapInsert, hk]
    · simp [mapGet, mapInsert, hk, ih]

/-- `mapInsert` leaves other keys untouched. -/
theorem mapGet_mapInsert_ne {α : Type} (m : List (Nat × α)) (k k2 : Nat) (w : α)
    (h : k2 ≠ k) : mapGet (mapInsert m k w) k2 = mapGet m k2 := by
  induction m with
  | nil => simp [mapGet, mapInsert, Ne.symm h]
  | cons hd tl ih =>
    obtain ⟨k0, v0⟩ := hd
    by_cases hk : k0 = k
    · subst hk
      simp [mapGet, mapInsert, Ne.symm h]
    · simp [mapGet, mapInsert, hk]
      by_cases hk2 : k0 = k2 <;> simp [hk2, ih]

/-! ### Intern pool  (`src/src/ast/intern.rs`)

`InternPool` stores interned strings in insertion order (the byte buffer
plus the `(start,end)` index of the source is represented directly as the
list of stored strings; `get_str id` is the lookup through that index) and
a hash table from the 32-bit djb2 hash to an `InternID`. -/

def U32 : Nat := 4294967296

/-- One step of `hash_djb2`: `hash = ((hash << 5).wrapping_add(hash)) ^ c as u32`
(`<<` and `wrapping_add` are arithmetic modulo 2^32). -/
def hashStep (h : Nat) (c : Char) : Nat :=
  (((h <<< 5) % U32 + h) % U32) ^^^ c.toNat

/-- `InternPool::hash_djb2`: fold of `hashStep` over the characters, seed 5381. -/
def hash_djb2 (s : String) : Nat :=
  s.data.foldl hashStep 5381

structure InternPool where
  next : Nat
  strings : List String
  intern_map : List (Nat × Nat)
deriving DecidableEq

def InternPool.new : InternPool :=
  { next := 0, strings := [], intern_map := [] }

/-- `InternPool::get_str` (out-of-range ids never occur in the source's use). -/
def InternPool.get_str (p : InternPool) (id : Nat) : String :=
  p.strings.getD id ""

/-- `InternPool::string_compare`: character-wise equality with the stored string. -/
def InternPool.string_compare (p : InternPool) (id : Nat) (s : String) : Bool :=
  p.get_str id == s

/-- `InternPool::intern`: look up the hash; on a byte-equal hit return the
existing id, otherwise append the bytes, insert `hash ↦ new id` into the
map (overwriting any binding of that hash) and bump `next`. -/
def InternPool.intern (p : InternPool) (s : String) : Nat × InternPool :=
  let hash := hash_djb2 s
  let hit : Option Nat :=
    match mapGet p.intern_map hash with
    | some id => if p.string_compare id s then some id else none
    | none => none
  match hit with
  | some id => (id, p)
  | none =>
    let id := p.next
    (id, { next := (p.next + 1) % U32,
           strings := p.strings ++ [s],
           intern_map := mapInsert p.intern_map hash id })

/-! ### Arena allocator  (`src/src/mem/arena.rs`)

Blocks are abstracted by a running index (the `data` pointer of the current
block); an allocation result names the block it lives in together with the
byte offset and rounded size of the region. -/

def PAGE_SIZE : Nat := 4096

structure Arena where
  block : Nat
  offset : Nat
  layout_size : Nat
deriving DecidableEq

structure AllocResult where
  block : Nat
  start : Nat
  size : Nat
deriving DecidableEq

/-- `Arena::alloc_block`: allocate a fresh block and reset the bump offset. -/
def Arena.alloc_block (a : Arena) : Arena :=
  { a with block := a.block + 1, offset := 0 }

/-- `Arena::new`: block sizes below `PAGE_SIZE` are clamped up, then the
first block is allocated. -/
def Arena.new (block_size : Nat) : Arena :=
  let bs := if block_size < PAGE_SIZE then PAGE_SIZE else block_size
  Arena.alloc_block { block := 0, offset := 0, layout_size := bs }

/-- `Arena::alloc_buffer`: `size = (len * size_of::<T>() + 7) & !7` (round up
to a multiple of 8, written here as division and multiplication); a new block
is allocated when `offset + size` overruns the layout size, and the region
starts at the current offset of the (possibly fresh) block. -/
def Arena.alloc_buffer (a : Arena) (len sizeOfT : Nat) : AllocResult × Arena :=
  let size := (len * sizeOfT + 7) / 8 * 8
  let a := if a.layout_size < a.offset + size then a.alloc_block else a
  (⟨a.block, a.offset, size⟩, { a with offset := a.offset + size })

/-- C10: a request whose rounded size fits in the (≥ 4096 byte) block size is
contained in a single block, while the concrete oversized request of 4097
bytes from a fresh 4096-byte arena gets a region that overruns the end of
the freshly allocated block. -/
theorem alloc_buffer_containment :
    (∀ (a : Arena) (len sizeOfT : Nat),
      a.offset ≤ a.layout_size →
      (len * sizeOfT + 7) / 8 * 8 ≤ a.layout_size →
      (a.alloc_buffer len sizeOfT).1.start + (a.alloc_buffer len sizeOfT).1.size ≤
        a.layout_size) ∧
    ((Arena.new 4096).alloc_buffer 4097 1).1.size = 4104 ∧
    ((Arena.new 4096).alloc_buffer 4097 1).2.block = (Arena.new 4096).block + 1 ∧
    (Arena.new 4096).layout_size <
      ((Arena.new 4096).alloc_buffer 4097 1).1.start +
        ((Arena.new 4096).alloc_buffer 4097 1).1.size := by
  refine ⟨?_, by decide, by decide, by decide⟩
  intro a len sizeOfT hoff hsz
  unfold Arena.alloc_buffer
  by_cases h : a.layout_size < a.offset + (len * sizeOfT + 7) / 8 * 8
  · simp only [h, if_true]
    simpa [Arena.alloc_block] using hsz
  · simp only [h, if_false]
    omega

/-- C10 witness: the containment half applied to a fresh 4096-byte arena and
an exactly block-sized request. -/
theorem alloc_buffer_containment_witness :
    ((Arena.new 4096).alloc_buffer 4096 1).1.start +
      ((Arena.new 4096).alloc_buffer 4096 1).1.size ≤ (Arena.new 4096).layout_size :=
  alloc_buffer_containment.1 (Arena.new 4096) 4096 1 (by decide) (by decide)

/-! ### Diagnostics and the emit gate

`ErrorComp` lives in `crate::error`, which is not part of the sources; it is
modelled from the spec. `HirEmit` and `emit` follow
`src/rock_core/src/hir_lower/hir_build.rs`; `check` follows
`src/rock_core/src/hir_lower/mod.rs` with the bodies of the five passes
abstracted as parameters. -/

inductive Severity where
  | error
  | warning
  | info
deriving DecidableEq

structure TextRange where
  start : Nat
  stop : Nat
deriving DecidableEq

/-- `SourceRange = (TextRange, FileID)`. -/
structure SourceRange where
  range : TextRange
  file_id : Nat
deriving DecidableEq

/-- Modelled from the spec: `crate::error::ErrorComp` is absent from the
sources; per §4.J a diagnostic is `{severity, main_message, contexts[]}`
with each context bound to a source range. -/
structure ErrorComp where
  severity : Severity
  message : String
  contexts : List SourceRange
deriving DecidableEq

/-- Modelled from the spec: `ErrorComp::error` builds an error-severity
diagnostic (used as such throughout `pass_3.rs` / `pass_5.rs`). -/
def ErrorComp.error (msg : String) : ErrorComp :=
  { severity := .error, message := msg, contexts := [] }

/-- Modelled from the spec: `ErrorComp::warning` builds a warning-severity
diagnostic (used by `typecheck_todo` in `pass_5.rs`). -/
def ErrorComp.warning (msg : String) : ErrorComp :=
  { severity := .warning, message := msg, contexts := [] }

/-- Modelled from the spec: `.context(src)` appends a context range. -/
def ErrorComp.context (e : ErrorComp) (src : SourceRange) : ErrorComp :=
  { e with contexts := e.contexts ++ [src] }

/-- `hir::Hir` payload handed out by `emit` (only the scope table is kept;
the remaining item tables are carried the same way and elided here). -/
structure Hir where
  scopes : List Nat
deriving DecidableEq

structure HirData where
  hir_scopes : List Nat
deriving DecidableEq

structure HirEmit where
  errors : List ErrorComp
deriving DecidableEq

def HirEmit.new : HirEmit := { errors := [] }

/-- `HirEmit::error`: push a diagnostic. -/
def HirEmit.pushError (e : HirEmit) (err : ErrorComp) : HirEmit :=
  { errors := e.errors ++ [err] }

/-- `HirEmit::emit`: hand out the HIR exactly when the collected list is
empty, otherwise the whole list. -/
def HirEmit.emit (e : HirEmit) (hir : HirData) : Except (List ErrorComp) Hir :=
  if e.errors.isEmpty then .ok { scopes := hir.hir_scopes } else .error e.errors

structure CheckState where
  hir : HirData
  emit : HirEmit

/-- `hir_lower::check`: the five lowering passes run unconditionally in
order, then the gate. Pass bodies (pass_1 … pass_5) are parameters. -/
def check (pass1 pass2 pass3 pass4 pass5 : CheckState → CheckState)
    (st : CheckState) : Except (List ErrorComp) Hir :=
  let st := pass1 st
  let st := pass2 st
  let st := pass3 st
  let st := pass4 st
  let st := pass5 st
  st.emit.emit st.hir

/-- C2 (amended): all five passes run before the gate, and the gate hands
out the HIR exactly when the collected diagnostic list is empty — not
merely free of error-severity entries. -/
theorem check_emits_iff_no_diagnostics
    (pass1 pass2 pass3 pass4 pass5 : CheckState → CheckState) (st : CheckState) :
    check pass1 pass2 pass3 pass4 pass5 st =
      (pass5 (pass4 (pass3 (pass2 (pass1 st))))).emit.emit
        (pass5 (pass4 (pass3 (pass2 (pass1 st))))).hir ∧
    ((∃ h, check pass1 pass2 pass3 pass4 pass5 st = .ok h) ↔
      (pass5 (pass4 (pass3 (pass2 (pass1 st))))).emit.errors = []) := by
  refine ⟨rfl, ?_⟩
  unfold check HirEmit.emit
  rcases h : (pass5 (pass4 (pass3 (pass2 (pass1 st))))).emit.errors with _ | ⟨e, es⟩ <;>
    simp [h]

/-- C2 counterexample: a single warning-severity diagnostic — no
error-severity diagnostic at all — already makes `emit` refuse the HIR. -/
theorem emit_refuses_on_warning_only :
    (∀ d ∈ (HirEmit.new.pushError
        (ErrorComp.warning "this expression is not yet typechecked")).errors,
      d.severity ≠ Severity.error) ∧
    (∀ h, (HirEmit.new.pushError
        (ErrorComp.warning "this expression is not yet typechecked")).emit
          { hir_scopes := [] } ≠ .ok h) := by
  constructor
  · intro d hd
    simp [HirEmit.new, HirEmit.pushError, ErrorComp.warning] at hd
    simp [hd]
  · intro h
    simp [HirEmit.new, HirEmit.pushError, HirEmit.emit]

/-! ### HIR types and `type_matches`  (`src/rock_core/src/hir_lower/pass_5.rs`)

`hir::Type` has two distinct static-array constructors (`ArrayStatic` and
`ArrayStaticDecl`); both carry a size const-expr slot, represented here by a
`Nat`, and an element type. -/

inductive BasicType where
  | unit | bool | s8 | s16 | s32 | s64 | ssize
  | u8 | u16 | u32 | u64 | usize | f32 | f64 | char | rawptr
deriving DecidableEq

inductive Mut where
  | mutable
  | immutable
deriving DecidableEq

inductive HirType where
  | error
  | basic (b : BasicType)
  | enumTy (id : Nat)
  | unionTy (id : Nat)
  | structTy (id : Nat)
  | reference (ref_ty : HirType) (mutt : Mut)
  | arraySlice (mutt : Mut) (ty : HirType)
  | arrayStatic (size : Nat) (ty : HirType)
  | arrayStaticDecl (size : Nat) (ty : HirType)
deriving DecidableEq

/-- `type_matches`, arm for arm: the `Error` arms first, then tag/id/structural
comparison, the two static-array arms comparing element types only, and the
catch-all `false`. -/
def type_matches : HirType → HirType → Bool
  | .error, _ => true
  | _, .error => true
  | .basic b, .basic b2 => b == b2
  | .enumTy id, .enumTy id2 => id == id2
  | .unionTy id, .unionTy id2 => id == id2
  | .structTy id, .structTy id2 => id == id2
  | .reference ref_ty mutt, .reference ref_ty2 mutt2 =>
    mutt == mutt2 && type_matches ref_ty ref_ty2
  | .arraySlice mutt ty, .arraySlice mutt2 ty2 =>
    mutt == mutt2 && type_matches ty ty2
  | .arrayStatic _ ty, .arrayStatic _ ty2 => type_matches ty ty2
  | .arrayStaticDecl _ ty, .arrayStaticDecl _ ty2 => type_matches ty ty2
  | _, _ => false

/-- C6 (amended): tag equality for basics, id equality per named kind,
mutability plus inner equality for references and slices, and element-only
comparison for static arrays of the *same* kind — a `[N] T` array type from
an expression (`ArrayStatic`) never matches one from a declaration
(`ArrayStaticDecl`), even at equal element types. -/
theorem type_matches_characterisation :
    (∀ b b2, type_matches (.basic b) (.basic b2) = (b == b2)) ∧
    (∀ id id2, type_matches (.enumTy id) (.enumTy id2) = (id == id2)) ∧
    (∀ id id2, type_matches (.unionTy id) (.unionTy id2) = (id == id2)) ∧
    (∀ id id2, type_matches (.structTy id) (.structTy id2) = (id == id2)) ∧
    (∀ t t2 m m2, type_matches (.reference t m) (.reference t2 m2) =
      (m == m2 && type_matches t t2)) ∧
    (∀ t t2 m m2, type_matches (.arraySlice m t) (.arraySlice m2 t2) =
      (m == m2 && type_matches t t2)) ∧
    (∀ s s2 t t2, type_matches (.arrayStatic s t) (.arrayStatic s2 t2) =
      type_matches t t2) ∧
    (∀ s s2 t t2, type_matches (.arrayStaticDecl s t) (.arrayStaticDecl s2 t2) =
      type_matches t t2) ∧
    (∀ s s2 t t2, type_matches (.arrayStatic s t) (.arrayStaticDecl s2 t2) = false) ∧
    (∀ s s2 t t2, type_matches (.arrayStaticDecl s t) (.arrayStatic s2 t2) = false) := by
  refine ⟨fun _ _ => rfl, fun _ _ => rfl, fun _ _ => rfl, fun _ _ => rfl,
    fun _ _ _ _ => rfl, fun _ _ _ _ => rfl, fun _ _ _ _ => rfl, fun _ _ _ _ => rfl,
    fun _ _ t _ => ?_, fun _ _ t _ => ?_⟩ <;> cases t <;> rfl

/-- C6 counterexample: two static-array types with equal element types
(`[1] s32` of each kind) that `type_matches` nevertheless rejects. -/
theorem static_array_kinds_never_match :
    type_matches (.basic .s32) (.basic .s32) = true ∧
    type_matches (.arrayStatic 1 (.basic .s32)) (.arrayStaticDecl 1 (.basic .s32)) =
      false := by
  decide

/-! ### The live type checker  (`src/rock_core/src/hir_lower/pass_5.rs`)

`run` drives `typecheck_proc`, which checks the procedure block through
`typecheck_expr_2` against the declared return type. The embedded AST covers
the expression sub-language these claims exercise; `Match`/`Field`/`Index`/
`Cast` (which recurse the same way) are left out, and the payloads of the
arms that the checker routes to `typecheck_placeholder` unread —
`If`, `Sizeof`, `Item`, `ProcCall`, `StructInit`, `ArrayInit`,
`ArrayRepeat`, `UnaryExpr`, `BinaryExpr` — are elided. Statement kinds are
complete. `hb.src(origin, range)` resolves the origin scope to its module
file; the scope table is elided and the origin scope id stands in for the
file id. HIR expression nodes (arena allocations) do not influence types or
diagnostics and are not carried. -/

structure Name where
  id : Nat
  range : TextRange
deriving DecidableEq

inductive AstTy where
  | basic (b : BasicType)
deriving DecidableEq

mutual
inductive Expr where
  | mk (kind : ExprKind) (range : TextRange)
inductive ExprKind where
  | unit
  | litNull
  | litBool (val : Bool)
  | litInt (val : Nat)
  | litFloat
  | litChar (val : Char)
  | litString (id : Nat)
  | ifExpr
  | block (stmts : Stmts)
  | sizeofExpr
  | itemExpr
  | procCall
  | structInit
  | arrayInit
  | arrayRepeat
  | unaryExpr
  | binaryExpr
inductive Stmts where
  | nil
  | cons (stmt : Stmt) (rest : Stmts)
inductive Stmt where
  | mk (kind : StmtKind) (range : TextRange)
inductive StmtKind where
  | breakStmt
  | continueStmt
  | returnStmt (e : OptionExpr)
  | defer (block : Expr)
  | forLoop
  | varDecl (v : VarDecl)
  | varAssign
  | exprSemi (e : Expr)
  | exprTail (e : Expr)
inductive OptionExpr where
  | none
  | some (e : Expr)
inductive VarDecl where
  | mk (mutt : Mut) (name : Name) (ty : Option AstTy) (expr : OptionExpr)
end

/-- Name lookup context: `hb.name_str ∘ (item name id)`, used by
`type_format` for named types. -/
structure TcCtx where
  nameOf : Nat → String

def basicTypeFormat : BasicType → String
  | .unit => "()"
  | .bool => "bool"
  | .s8 => "s8"
  | .s16 => "s16"
  | .s32 => "s32"
  | .s64 => "s64"
  | .ssize => "ssize"
  | .u8 => "u8"
  | .u16 => "u16"
  | .u32 => "u32"
  | .u64 => "u64"
  | .usize => "usize"
  | .f32 => "f32"
  | .f64 => "f64"
  | .char => "char"
  | .rawptr => "rawptr"

/-- `type_format`. -/
def type_format (ctx : TcCtx) : HirType → String
  | .error => "error"
  | .basic b => basicTypeFormat b
  | .enumTy id => ctx.nameOf id
  | .unionTy id => ctx.nameOf id
  | .structTy id => ctx.nameOf id
  | .reference ref_ty mutt =>
    "&" ++ (match mutt with | .mutable => "mut " | .immutable => "") ++
      type_format ctx ref_ty
  | .arraySlice mutt ty =>
    "[" ++ (match mutt with | .mutable => "mut" | .immutable => "") ++ "]" ++
      type_format ctx ty
  | .arrayStatic _ ty => "[<SIZE>]" ++ type_format ctx ty
  | .arrayStaticDecl _ ty => "[<SIZE>]" ++ type_format ctx ty

structure BlockFlags where
  in_loop : Bool
  in_defer : Bool
deriving DecidableEq

def BlockFlags.from_root : BlockFlags :=
  { in_loop := false, in_defer := false }

def BlockFlags.enter_defer (f : BlockFlags) : BlockFlags :=
  { in_loop := f.in_loop, in_defer := true }

def BlockFlags.enter_loop (f : BlockFlags) : BlockFlags :=
  { in_loop := true, in_defer := f.in_defer }

/-- `typecheck_lit_int`: adopt an expected integer basic type, else `s32`. -/
def typecheck_lit_int (expect : HirType) : BasicType :=
  match expect with
  | .basic e =>
    match e with
    | .unit => .s32
    | .bool => .s32
    | .s8 | .s16 | .s32 | .s64 | .ssize
    | .u8 | .u16 | .u32 | .u64 | .usize => e
    | .f32 => .s32
    | .f64 => .s32
    | .char => .s32
    | .rawptr => .s32
  | _ => .s32

/-- `typecheck_lit_float`: adopt an expected float basic type, else `f64`. -/
def typecheck_lit_float (expect : HirType) : BasicType :=
  match expect with
  | .basic e =>
    match e with
    | .f32 | .f64 => e
    | _ => .f64
  | _ => .f64

/-- `typecheck_stmt_break`. -/
def typecheck_stmt_break (origin : Nat) (flags : BlockFlags) (range : TextRange)
    (errs : List ErrorComp) : List ErrorComp :=
  if !flags.in_loop then
    errs ++ [(ErrorComp.error "cannot use `break` outside of a loop").context
      ⟨range, origin⟩]
  else errs

/-- `typecheck_stmt_continue`. -/
def typecheck_stmt_continue (origin : Nat) (flags : BlockFlags) (range : TextRange)
    (errs : List ErrorComp) : List ErrorComp :=
  if !flags.in_loop then
    errs ++ [(ErrorComp.error "cannot use `continue` outside of a loop").context
      ⟨range, origin⟩]
  else errs

mutual
/-- `typecheck_expr_2`: dispatch on the expression kind, then compare the
result type against the expected type and report a mismatch at the
expression's range. The `Block` arm carries `typecheck_block`'s body
(`(unit, loop over the statements)`) spelled out so that the recursion
stays structural. -/
def typecheck_expr_2 (ctx : TcCtx) (origin : Nat) (flags : BlockFlags)
    (expect : HirType) : Expr → List ErrorComp → HirType × List ErrorComp
  | .mk kind range, errs =>
    let r : HirType × List ErrorComp :=
      match kind with
      | .unit => (.basic .unit, errs)
      | .litNull => (.basic .rawptr, errs)
      | .litBool _ => (.basic .bool, errs)
      | .litInt _ => (.basic (typecheck_lit_int expect), errs)
      | .litFloat => (.basic (typecheck_lit_float expect), errs)
      | .litChar _ => (.basic .char, errs)
      | .litString _ => (.arraySlice .immutable (.basic .u8), errs)
      | .ifExpr => (.error, errs)
      | .block stmts =>
        (.basic .unit, typecheck_block_loop ctx origin flags expect stmts errs)
      | .sizeofExpr | .itemExpr | .procCall | .structInit
      | .arrayInit | .arrayRepeat | .unaryExpr | .binaryExpr => (.error, errs)
    if type_matches expect r.1 then r
    else
      (r.1, r.2 ++ [(ErrorComp.error ("type mismatch: expected `" ++
        type_format ctx expect ++ "`, found `" ++ type_format ctx r.1 ++
        "`")).context ⟨range, origin⟩])

/-- The `for stmt in stmts` loop of `typecheck_block`: `Break`/`Continue`
check the flags, `Return`/`ForLoop`/`VarDecl`/`VarAssign` do nothing,
`Defer` (body of `typecheck_stmt_defer` spelled out) rejects nesting and
checks its block against `unit` under `enter_defer`, `ExprSemi` is checked
with no expectation and `ExprTail` against the block's expected type. -/
def typecheck_block_loop (ctx : TcCtx) (origin : Nat) (flags : BlockFlags)
    (expect : HirType) : Stmts → List ErrorComp → List ErrorComp
  | .nil, errs => errs
  | .cons (.mk kind range) rest, errs =>
    let errs : List ErrorComp :=
      match kind with
      | .breakStmt => typecheck_stmt_break origin flags range errs
      | .continueStmt => typecheck_stmt_continue origin flags range errs
      | .returnStmt _ => errs
      | .defer block =>
        let errs :=
          if flags.in_defer then
            errs ++ [(ErrorComp.error "`defer` statement cannot be nested").context
              ⟨⟨range.start, range.start + 5⟩, origin⟩]
          else errs
        (typecheck_expr_2 ctx origin flags.enter_defer (.basic .unit) block errs).2
      | .forLoop => errs
      | .varDecl _ => errs
      | .varAssign => errs
      | .exprSemi e => (typecheck_expr_2 ctx origin flags .error e errs).2
      | .exprTail e => (typecheck_expr_2 ctx origin flags expect e errs).2
    typecheck_block_loop ctx origin flags expect rest errs
end

/-- `typecheck_block`: run the statement loop, then hand back
`TypeResult::new(unit, …)` — the block's type is the `unit` literal
irrespective of the statements. -/
def typecheck_block (ctx : TcCtx) (origin : Nat) (flags : BlockFlags)
    (expect : HirType) (stmts : Stmts) (errs : List ErrorComp) :
    HirType × List ErrorComp :=
  (.basic .unit, typecheck_block_loop ctx origin flags expect stmts errs)

/-- `typecheck_proc`, `Some(block)` branch: check the block against the
declared return type from the root flags (the block-less `#[c_call]`
directive branch is not modelled). -/
def typecheck_proc (ctx : TcCtx) (origin : Nat) (return_ty : HirType)
    (block : Expr) : List ErrorComp :=
  (typecheck_expr_2 ctx origin BlockFlags.from_root return_ty block []).2

/-- A name-lookup context; the concrete claims below never reach a named
type, so the lookup is immaterial. -/
def tcCtx0 : TcCtx := { nameOf := fun _ => "" }

/-- The RHS `true` of `let x: s32 = true;` (range of the literal). -/
def c3TrueExpr : Expr := .mk (.litBool true) ⟨24, 28⟩

/-- The body `{ let x: s32 = true; }` of `proc f() { let x: s32 = true; }`:
one `VarDecl` statement with annotation `s32` and initialiser `true`. -/
def c3Block : Expr :=
  .mk (.block (.cons
    (.mk (.varDecl (.mk .immutable ⟨0, ⟨15, 16⟩⟩ (some (.basic .s32))
      (.some c3TrueExpr))) ⟨11, 29⟩)
    .nil)) ⟨9, 31⟩

/-- C3: checking `proc f() { let x: s32 = true; }` (return type lowered to
`unit`) emits no diagnostic at all — the `VarDecl` statement arm of the
block loop is an empty stub, so the initialiser is never checked against
the annotation. The second conjunct shows the claimed diagnostic is exactly
what `typecheck_expr_2` would produce had `true` been checked against
`s32`, so the message machinery exists but is never invoked here. -/
theorem var_decl_type_mismatch_not_emitted :
    typecheck_proc tcCtx0 0 (.basic .unit) c3Block = [] ∧
    (typecheck_expr_2 tcCtx0 0 BlockFlags.from_root (.basic .s32) c3TrueExpr []).2 =
      [{ severity := .error,
         message := "type mismatch: expected `s32`, found `bool`",
         contexts := [⟨⟨24, 28⟩, 0⟩] }] :=
  ⟨rfl, rfl⟩

/-- C5 (amended): the type assigned to a block is the `unit` literal no
matter which statements it holds; a tail expression is still checked
against the block's expected type, but its type is discarded. -/
theorem typecheck_block_always_unit (ctx : TcCtx) (origin : Nat)
    (flags : BlockFlags) (expect : HirType) :
    (∀ stmts errs,
      (typecheck_block ctx origin flags expect stmts errs).1 = .basic .unit) ∧
    (∀ e srange errs,
      typecheck_block ctx origin flags expect
          (.cons (.mk (.exprTail e) srange) .nil) errs =
        (.basic .unit, (typecheck_expr_2 ctx origin flags expect e errs).2)) :=
  ⟨fun _ _ => rfl, fun _ _ _ => rfl⟩

/-- C5 counterexample: a block whose tail expression has type `bool` is
itself assigned type `unit`, not the tail's type. -/
theorem block_type_not_tail_type :
    (typecheck_expr_2 tcCtx0 0 BlockFlags.from_root (.basic .bool)
      (Expr.mk (.litBool true) ⟨12, 16⟩) []).1 = .basic .bool ∧
    (typecheck_block tcCtx0 0 BlockFlags.from_root (.basic .bool)
      (.cons (.mk (.exprTail (Expr.mk (.litBool true) ⟨12, 16⟩)) ⟨12, 16⟩) .nil)
      []).1 = .basic .unit ∧
    HirType.basic .unit ≠ HirType.basic .bool :=
  ⟨rfl, rfl, by decide⟩

/-! ### Parser and the module error strategy  (`src/rock_core/src/ast_parse/grammar.rs`)

The token alphabet is restricted to the tokens `import` items and the
module loop touch; the keywords opening the other item forms are outside
it, so the keyword dispatch of `item` keeps only its `import` arm and the
catch-all `Err("expected item")`, as in the source. The cursor/`peek`/
`bump`/`eat`/`expect` primitives live in `ast_parse/parser.rs`, which is
not among the sources — they are modelled from the spec (§4.E). Failing
parse functions hand back the parser state advanced as far as the failure,
mirroring the `&mut Parser` threading. -/

inductive Token where
  | kwImport
  | kwPub
  | kwAs
  | ident
  | slash
  | dot
  | comma
  | semicolon
  | hash
  | openBracket
  | closeBracket
  | openBrace
  | closeBrace
  | eof
deriving DecidableEq

structure ParserState where
  tokens : List (Token × TextRange)
  identOf : Nat → Nat
  cursor : Nat

/-- Modelled from the spec: `peek()` — the token stream ends in an `eof`
sentinel, returned for any cursor at or past the end. -/
def ParserState.peek (p : ParserState) : Token :=
  (p.tokens.getD p.cursor (.eof, ⟨0, 0⟩)).1

/-- Modelled from the spec: `peek_range()`. -/
def ParserState.peek_range (p : ParserState) : TextRange :=
  (p.tokens.getD p.cursor (.eof, ⟨0, 0⟩)).2

/-- Modelled from the spec: `at(T)`. -/
def ParserState.atTok (p : ParserState) (t : Token) : Bool :=
  p.peek == t

/-- Modelled from the spec: `bump()`. -/
def ParserState.bump (p : ParserState) : ParserState :=
  { p with cursor := p.cursor + 1 }

/-- Modelled from the spec: `eat(T) → bool`. -/
def ParserState.eat (p : ParserState) (t : Token) : Bool × ParserState :=
  if p.atTok t then (true, p.bump) else (false, p)

/-- Modelled from the spec: `expect(T) → Result` (the parser does not
advance past an unexpected token). -/
def ParserState.expect (p : ParserState) (t : Token) :
    Except (String × ParserState) ParserState :=
  if p.atTok t then .ok p.bump else .error ("expected token", p)

structure ImportSymbol where
  name : Name
  aliasName : Option Name
deriving DecidableEq

structure ImportItem where
  package : Option Name
  module : Name
  aliasName : Option Name
  symbols : List ImportSymbol
deriving DecidableEq

inductive Item where
  | importItem (i : ImportItem)
deriving DecidableEq

inductive Vis where
  | publicVis
  | privateVis
deriving DecidableEq

structure Attribute where
  kindIdent : Nat
  range : TextRange
deriving DecidableEq

structure Module where
  file_id : Nat
  name_id : Nat
  items : List Item
deriving DecidableEq

/-- `name`: capture the range, expect an identifier, intern its source
slice (`p.identOf` maps the token position to the interned id). -/
def parseName (p : ParserState) : Except (String × ParserState) (Name × ParserState) := do
  let range := p.peek_range
  let c := p.cursor
  let p ← p.expect .ident
  .ok (⟨p.identOf c, range⟩, p)

/-- `attribute`: an optional `#[ident]` prefix (`AttributeKind::from_str`
is elided; the identifier's id is stored). -/
def parseAttribute (p : ParserState) :
    Except (String × ParserState) (Option Attribute × ParserState) := do
  let start := p.peek_range.start
  match p.eat .hash with
  | (true, p) => do
    let p ← p.expect .openBracket
    let range := p.peek_range
    let c := p.cursor
    let p ← p.expect .ident
    let id := p.identOf c
    let _ := range
    let p ← p.expect .closeBracket
    let stop := (p.tokens.getD (p.cursor - 1) (.eof, ⟨0, 0⟩)).2.stop
    .ok (some ⟨id, ⟨start, stop⟩⟩, p)
  | (false, p) => .ok (none, p)

/-- `vis`: an optional `pub`. -/
def parseVis (p : ParserState) : Vis × ParserState :=
  match p.eat .kwPub with
  | (true, p) => (.publicVis, p)
  | (false, p) => (.privateVis, p)

/-- `import_symbol`: a name with an optional `as` alias. -/
def import_symbol (p : ParserState) :
    Except (String × ParserState) (ImportSymbol × ParserState) := do
  let (n, p) ← parseName p
  match p.eat .kwAs with
  | (true, p) => do
    let (a, p) ← parseName p
    .ok (⟨n, some a⟩, p)
  | (false, p) => .ok (⟨n, none⟩, p)

/-- The `comma_separated_list!` loop for import symbols: parse until the
closing brace or eof, breaking when no comma follows an element. The fuel
is the remaining token count plus one; every iteration consumes at least
one token, so it never runs out (the fuel arm's value is immaterial). -/
def import_symbol_list_loop :
    Nat → ParserState → List ImportSymbol →
    Except (String × ParserState) (List ImportSymbol × ParserState)
  | 0, p, acc => .ok (acc, p)
  | fuel + 1, p, acc =>
    if p.atTok .closeBrace || p.atTok .eof then .ok (acc, p)
    else
      match import_symbol p with
      | .error ep => .error ep
      | .ok (sym, p) =>
        match p.eat .comma with
        | (true, p) => import_symbol_list_loop fuel p (acc ++ [sym])
        | (false, p) => .ok (acc ++ [sym], p)

/-- `import_item`: `import first (/second)? (as alias)? (.{symbols})? ;`. -/
def import_item (p : ParserState) :
    Except (String × ParserState) (ImportItem × ParserState) := do
  let p := p.bump
  let (first, p) ← parseName p
  let (second, p) ←
    match p.eat .slash with
    | (true, p) => do
      let (n, p) ← parseName p
      Except.ok (some n, p)
    | (false, p) => Except.ok ((none : Option Name), p)
  let (alias?, p) ←
    match p.eat .kwAs with
    | (true, p) => do
      let (n, p) ← parseName p
      Except.ok (some n, p)
    | (false, p) => Except.ok ((none : Option Name), p)
  let (symbols, p) ←
    match p.eat .dot with
    | (true, p) => do
      let p ← p.expect .openBrace
      let (syms, p) ← import_symbol_list_loop (p.tokens.length + 1) p []
      let p ← p.expect .closeBrace
      let (_, p) := p.eat .semicolon
      Except.ok (syms, p)
    | (false, p) => do
      let p ← p.expect .semicolon
      Except.ok (([] : List ImportSymbol), p)
  .ok (⟨second.map (fun _ => first), second.getD first, alias?, symbols⟩, p)

/-- `item`: optional attribute, optional `pub`, then keyword dispatch; any
token that opens no item form falls to `Err("expected item")`. -/
def item (p : ParserState) : Except (String × ParserState) (Item × ParserState) := do
  let (_attr, p) ← parseAttribute p
  let (_vis, p) := parseVis p
  match p.peek with
  | .kwImport => do
    let (i, p) ← import_item p
    .ok (.importItem i, p)
  | _ => .error ("expected item", p)

/-- Modelled from the spec: `ErrorComp::new_detailed` — an error-severity
diagnostic whose single context carries the source range (the auxiliary
"unexpected token" note string is folded into the record shape of §4.J). -/
def ErrorComp.newDetailed (msg : String) (note : String) (src : SourceRange) :
    ErrorComp :=
  { severity := .error, message := msg ++ ": " ++ note, contexts := [src] }

/-- The `while !p.at(T![eof])` loop of `module`: parse items until eof; on
the first item error, pin one diagnostic at the current token (backing the
cursor up by one when the failure sits on the eof sentinel) and return it,
abandoning the module. The fuel is one more than the token count; a
successful item always consumes at least one token. -/
def moduleLoop (file_id : Nat) :
    Nat → ParserState → List Item → Except ErrorComp (List Item × ParserState)
  | 0, p, items => .ok (items, p)
  | fuel + 1, p, items =>
    if p.atTok .eof then .ok (items, p)
    else
      match item p with
      | .ok (it, p) => moduleLoop file_id fuel p (items ++ [it])
      | .error (e, p) =>
        let p := if p.atTok .eof then { p with cursor := p.cursor - 1 } else p
        let range := p.peek_range
        .error (ErrorComp.newDetailed e "unexpected token" ⟨range, file_id⟩)

/-- `module`: run the item loop from the given parser and assemble the
module on success. -/
def parseModule (p : ParserState) (file_id name_id : Nat) :
    Except ErrorComp Module :=
  match moduleLoop file_id (p.tokens.length + 1) p [] with
  | .ok (items, _) => .ok ⟨file_id, name_id, items⟩
  | .error e => .error e

/-- C4 (amended): an item-level error yields exactly one diagnostic, pinned
at the current token, and the whole module parse is abandoned there — the
parser does not advance to a synchronising token and does not continue with
the remaining items. -/
theorem module_aborts_on_item_error (file_id fuel : Nat) (p : ParserState)
    (items : List Item) (msg : String) (pErr : ParserState)
    (hne : p.atTok .eof = false)
    (herr : item p = .error (msg, pErr))
    (hne2 : pErr.atTok .eof = false) :
    moduleLoop file_id (fuel + 1) p items =
      .error (ErrorComp.newDetailed msg "unexpected token"
        ⟨pErr.peek_range, file_id⟩) := by
  unfold moduleLoop
  simp [hne, herr, hne2]

/-- The token stream of `; import a;` — a junk token that fails the item
dispatch, followed by a complete well-formed import item. -/
def c4Tokens : List (Token × TextRange) :=
  [(.semicolon, ⟨0, 1⟩), (.kwImport, ⟨2, 8⟩), (.ident, ⟨9, 10⟩),
   (.semicolon, ⟨10, 11⟩), (.eof, ⟨11, 11⟩)]

def c4Parser : ParserState :=
  { tokens := c4Tokens, identOf := fun _ => 42, cursor := 0 }

/-- C4 counterexample: on `; import a;` the module parse stops at the very
first item error with a single diagnostic pinned at the offending `;` and
returns no items at all, even though resuming one token later (past the
claimed synchronising token) parses the remaining `import a;` item
perfectly well. -/
theorem module_does_not_resync :
    parseModule c4Parser 7 99 =
      .error (ErrorComp.newDetailed "expected item" "unexpected token"
        ⟨⟨0, 1⟩, 7⟩) ∧
    moduleLoop 7 6 { c4Parser with cursor := 1 } [] =
      .ok ([.importItem ⟨none, ⟨42, ⟨9, 10⟩⟩, none, []⟩],
        { c4Parser with cursor := 4 }) := by
  constructor
  · rfl
  · rfl

/-- C4 witness: the abort theorem applied to the concrete `; import a;`
stream. -/
theorem module_aborts_on_item_error_witness :
    moduleLoop 7 5 c4Parser [] =
      .error (ErrorComp.newDetailed "expected item" "unexpected token"
        ⟨⟨0, 1⟩, 7⟩) :=
  module_aborts_on_item_error 7 4 c4Parser [] "expected item" c4Parser rfl rfl rfl

/-! ### Module discovery and file claiming  (`src/src/check/check.rs`, `pass_0_populate_scopes`)

`module_map : PathBuf → Result<P<Module>, SourceLoc>` holds either the
still-available parsed module of a file or the source location of the
`mod` declaration that claimed it. Paths and modules are identified by
numbers; the candidate paths `origin_dir/NAME.lang` and
`origin_dir/NAME/mod.lang` arrive pre-computed. -/

inductive ModEntry where
  | avail (module : Nat)
  | taken (src : Nat)
deriving DecidableEq

inductive ModResolve where
  | errMissing
  | errBothPresent
  | errTaken (claimant : Nat)
  | resolved (module : Nat)
deriving DecidableEq

/-- The `match (module_map.get(&path1), module_map.get(&path2))` of the
`Decl::Mod` arm: neither candidate present or both present is an error; a
single available candidate is claimed (its entry is overwritten with the
declaration's source location through `get_mut`); a single already-taken
candidate reports the claimant. -/
def resolve_mod_decl (module_map : List (Nat × ModEntry)) (path1 path2 src : Nat) :
    ModResolve × List (Nat × ModEntry) :=
  match mapGet module_map path1, mapGet module_map path2 with
  | none, none => (.errMissing, module_map)
  | some _, some _ => (.errBothPresent, module_map)
  | some (.avail m), none => (.resolved m, mapInsert module_map path1 (.taken src))
  | some (.taken t), none => (.errTaken t, module_map)
  | none, some (.avail m) => (.resolved m, mapInsert module_map path2 (.taken src))
  | none, some (.taken t) => (.errTaken t, module_map)

/-- C8: both candidate files are looked up — none existing or both existing
is an error; a single available one becomes the target and is claimed by
the declaration; and a later declaration resolving to the same claimed file
is rejected with a reference to the claiming declaration's location. -/
theorem mod_decl_claims_file (module_map : List (Nat × ModEntry))
    (path1 path2 src : Nat) :
    (mapGet module_map path1 = none → mapGet module_map path2 = none →
      (resolve_mod_decl module_map path1 path2 src).1 = .errMissing) ∧
    (∀ e1 e2, mapGet module_map path1 = some e1 → mapGet module_map path2 = some e2 →
      (resolve_mod_decl module_map path1 path2 src).1 = .errBothPresent) ∧
    (∀ m, mapGet module_map path1 = some (.avail m) → mapGet module_map path2 = none →
      (resolve_mod_decl module_map path1 path2 src).1 = .resolved m ∧
      mapGet (resolve_mod_decl module_map path1 path2 src).2 path1 =
        some (.taken src)) ∧
    (∀ m, mapGet module_map path1 = none → mapGet module_map path2 = some (.avail m) →
      (resolve_mod_decl module_map path1 path2 src).1 = .resolved m ∧
      mapGet (resolve_mod_decl module_map path1 path2 src).2 path2 =
        some (.taken src)) ∧
    (∀ m src2, mapGet module_map path1 = some (.avail m) →
      mapGet module_map path2 = none →
      resolve_mod_decl (resolve_mod_decl module_map path1 path2 src).2
          path1 path2 src2 =
        (.errTaken src, (resolve_mod_decl module_map path1 path2 src).2)) := by
  refine ⟨?_, ?_, ?_, ?_, ?_⟩
  · intro h1 h2
    simp [resolve_mod_decl, h1, h2]
  · intro e1 e2 h1 h2
    simp [resolve_mod_decl, h1, h2]
  · intro m h1 h2
    refine ⟨by simp [resolve_mod_decl, h1, h2], ?_⟩
    simp [resolve_mod_decl, h1, h2, mapGet_mapInsert_self]
  · intro m h1 h2
    refine ⟨by simp [resolve_mod_decl, h1, h2], ?_⟩
    simp [resolve_mod_decl, h1, h2, mapGet_mapInsert_self]
  · intro m src2 h1 h2
    have hne : path2 ≠ path1 := by
      intro h
      rw [h, h1] at h2
      exact Option.noConfusion h2
    have hm1 : mapGet (resolve_mod_decl module_map path1 path2 src).2 path1 =
        some (.taken src) := by
      simp [resolve_mod_decl, h1, h2, mapGet_mapInsert_self]
    have hm2 : mapGet (resolve_mod_decl module_map path1 path2 src).2 path2 = none := by
      simp [resolve_mod_decl, h1, h2, mapGet_mapInsert_ne _ _ _ _ hne]
    generalize hM : (resolve_mod_decl module_map path1 path2 src).2 = map2 at hm1 hm2 ⊢
    rw [resolve_mod_decl.eq_def, hm1, hm2]

/-- C8 witness: a map holding one available module at path 1; the first
`mod` declaration (at source location 10) claims it and a second one (at
location 20) is rejected with a reference to location 10. -/
theorem mod_decl_claims_file_witness :
    (resolve_mod_decl [(1, .avail 7)] 1 2 10).1 = .resolved 7 ∧
    mapGet (resolve_mod_decl [(1, .avail 7)] 1 2 10).2 1 = some (.taken 10) ∧
    resolve_mod_decl (resolve_mod_decl [(1, .avail 7)] 1 2 10).2 1 2 20 =
      (.errTaken 10, (resolve_mod_decl [(1, .avail 7)] 1 2 10).2) := by
  have h := mod_decl_claims_file [(1, .avail 7)] 1 2 10
  exact ⟨(h.2.2.1 7 rfl rfl).1, (h.2.2.1 7 rfl rfl).2, h.2.2.2.2 7 20 rfl rfl⟩

/-! ### Scope symbol lookup  (`src/rock_core/src/hir_lower/hir_build.rs`)

`symbol_from_scope` resolves a name in a target scope on behalf of an
origin scope; `symbol_kind_range` (the name range drawn from the per-kind
item tables) is abstracted as a function of the symbol kind. -/

inductive SymbolKind where
  | modK (id : Nat)
  | procK (id : Nat)
  | enumK (id : Nat)
  | unionK (id : Nat)
  | structK (id : Nat)
  | constK (id : Nat)
  | globalK (id : Nat)
deriving DecidableEq

inductive Symbol where
  | defined (kind : SymbolKind)
  | imported (kind : SymbolKind) (use_range : TextRange)
deriving DecidableEq

inductive PathKind where
  | noPrefix
  | superPrefix
  | packagePrefix
deriving DecidableEq

structure Scope where
  parent : Option Nat
  symbols : List (Nat × Symbol)
  file_id : Nat
deriving DecidableEq

structure HirScopes where
  scopes : List Scope
  kindRange : SymbolKind → TextRange

def HirScopes.scope (hd : HirScopes) (id : Nat) : Scope :=
  hd.scopes.getD id ⟨none, [], 0⟩

def updateAt {α : Type} : List α → Nat → (α → α) → List α
  | [], _, _ => []
  | x :: rest, 0, f => f x :: rest
  | x :: rest, n + 1, f => x :: updateAt rest n f

/-- `scope_add_imported` via `scope_add_symbol`: install
`Imported { kind, use_range }` under the use-name in the origin scope. -/
def scope_add_imported (hd : HirScopes) (origin_id : Nat) (use_name : Name)
    (kind : SymbolKind) : HirScopes :=
  { hd with
    scopes := updateAt hd.scopes origin_id (fun s =>
      { s with symbols :=
          mapInsert s.symbols use_name.id (.imported kind use_name.range) }) }

/-- `symbol_from_scope`: a `Defined` hit is returned with its item-table
range; an `Imported` hit is returned only when
`path_kind == PathKind::None && origin_id == target_id`, and is otherwise
treated as absent. -/
def symbol_from_scope (hd : HirScopes) (origin_id target_id : Nat)
    (path_kind : PathKind) (id : Nat) : Option (SymbolKind × SourceRange) :=
  let target := hd.scope target_id
  match mapGet target.symbols id with
  | some (.defined kind) => some (kind, ⟨hd.kindRange kind, target.file_id⟩)
  | some (.imported kind use_range) =>
    let allow_use := path_kind == .noPrefix && origin_id == target_id
    if allow_use then some (kind, ⟨use_range, target.file_id⟩) else none
  | none => none

/-- C9: an `Imported` entry is surfaced only for a prefix-less lookup from
the very scope it sits in; a lookup from a different origin scope can only
surface `Defined` entries, and an `Imported` entry is invisible to any
lookup that is cross-scope or carries a path prefix. -/
theorem imported_symbols_scope_local (hd : HirScopes) (origin target : Nat)
    (pk : PathKind) (id : Nat) :
    (∀ kind src use_range,
      mapGet (hd.scope target).symbols id = some (.imported kind use_range) →
      symbol_from_scope hd origin target pk id = some (kind, src) →
      pk = .noPrefix ∧ origin = target) ∧
    (∀ kind src, origin ≠ target →
      symbol_from_scope hd origin target pk id = some (kind, src) →
      mapGet (hd.scope target).symbols id = some (.defined kind)) ∧
    (∀ kind use_range, pk ≠ .noPrefix ∨ origin ≠ target →
      mapGet (hd.scope target).symbols id = some (.imported kind use_range) →
      symbol_from_scope hd origin target pk id = none) := by
  refine ⟨?_, ?_, ?_⟩
  · intro kind src use_range hlook hres
    rw [symbol_from_scope] at hres
    simp only [hlook] at hres
    by_cases hpk : pk = PathKind.noPrefix
    · by_cases hot : origin = target
      · exact ⟨hpk, hot⟩
      · exfalso
        have hb : (origin == target) = false := beq_eq_false_iff_ne.mpr hot
        simp [hb] at hres
    · exfalso
      have hb : (pk == PathKind.noPrefix) = false := beq_eq_false_iff_ne.mpr hpk
      simp [hb] at hres
  · intro kind src hne hres
    rw [symbol_from_scope] at hres
    rcases hlook : mapGet (hd.scope target).symbols id with _ | s
    · simp [hlook] at hres
    · rcases s with k | ⟨k, ur⟩
      · simp only [hlook, Option.some.injEq, Prod.mk.injEq] at hres
        rw [hres.1]
      · simp only [hlook] at hres
        have hb : (origin == target) = false := beq_eq_false_iff_ne.mpr hne
        simp [hb] at hres
  · intro kind use_range hor hlook
    rw [symbol_from_scope]
    simp only [hlook]
    have hall : (pk == PathKind.noPrefix && origin == target) = false := by
      rcases hor with h | h
      · have : (pk == PathKind.noPrefix) = false := beq_eq_false_iff_ne.mpr h
        simp [this]
      · have : (origin == target) = false := beq_eq_false_iff_ne.mpr h
        simp [this]
    simp [hall]

/-- A two-scope table: scope 0 holds an imported symbol under name 5,
scope 1 is empty. -/
def c9Scopes : HirScopes :=
  { scopes := [⟨none, [(5, .imported (.procK 0) ⟨1, 2⟩)], 0⟩, ⟨some 0, [], 1⟩],
    kindRange := fun _ => ⟨0, 0⟩ }

/-- C9 witness: the cross-scope invisibility part applied to `c9Scopes` —
looking name 5 up in scope 0 on behalf of scope 1 yields nothing. -/
theorem imported_symbols_scope_local_witness :
    symbol_from_scope c9Scopes 1 0 .noPrefix 5 = none :=
  (imported_symbols_scope_local c9Scopes 1 0 .noPrefix 5).2.2 (.procK 0) ⟨1, 2⟩
    (Or.inr (by decide)) rfl

/-! ### The import fixpoint loop  (`src/src/check/check.rs`, `pass_2_import_symbols`)

Per scope, the loop repeatedly sweeps the scope's import tasks; a task,
once `resolved`, stays resolved (the flag is only ever set), and
`curr_progress` counts the resolved tasks after the sweep (previously
resolved ones included). The loop breaks when `progress >= curr_progress`.
Whether an unresolved task resolves during sweep `i` depends on the
ambient scope/symbol state; that decision is abstracted as an oracle
`g : sweep index → task index → Bool`, so the theorems hold for every
possible behaviour of the surrounding passes. -/

def countResolved (tasks : List Bool) : Nat :=
  tasks.count true

def iterOnceAux (gi : Nat → Bool) : Nat → List Bool → List Bool
  | _, [] => []
  | j, t :: rest => (t || gi j) :: iterOnceAux gi (j + 1) rest

/-- One `'task: for task in import_tasks` sweep: already-resolved tasks are
kept, unresolved ones resolve when the oracle says so. -/
def iterOnce (gi : Nat → Bool) (tasks : List Bool) : List Bool :=
  iterOnceAux gi 0 tasks

/-- The `loop { … }` of `pass_2_import_symbols`, returning the trace of
`curr_progress` values (one entry per executed iteration), the final task
flags, and whether the `break` was reached (`false` only on fuel
exhaustion, which the theorems rule out). -/
def importLoop (g : Nat → Nat → Bool) :
    Nat → Nat → Nat → List Bool → List Nat × List Bool × Bool
  | 0, _, _, tasks => ([], tasks, false)
  | fuel + 1, iter, progress, tasks =>
    let tasks2 := iterOnce (g iter) tasks
    let curr := countResolved tasks2
    if curr ≤ progress then ([curr], tasks2, true)
    else
      let r := importLoop g fuel (iter + 1) curr tasks2
      (curr :: r.1, r.2.1, r.2.2)

/-- The fixpoint as run per scope: `progress` starts at 0 and the fuel
`N + 1` is shown sufficient below. -/
def pass_2_fixpoint (g : Nat → Nat → Bool) (tasks : List Bool) :
    List Nat × List Bool × Bool :=
  importLoop g (tasks.length + 1) 0 0 tasks

theorem length_iterOnceAux (gi : Nat → Bool) (j : Nat) (l : List Bool) :
    (iterOnceAux gi j l).length = l.length := by
  induction l generalizing j with
  | nil => rfl
  | cons t rest ih => simp [iterOnceAux, ih]

theorem count_le_iterOnceAux (gi : Nat → Bool) (j : Nat) (l : List Bool) :
    l.count true ≤ (iterOnceAux gi j l).count true := by
  induction l generalizing j with
  | nil => simp [iterOnceAux]
  | cons t rest ih =>
    simp only [iterOnceAux, List.count_cons]
    cases t <;> simp <;> exact le_trans (ih (j + 1)) (by omega)

theorem importLoop_spec (g : Nat → Nat → Bool) (fuel : Nat) :
    ∀ (iter progress : Nat) (tasks : List Bool),
      progress ≤ tasks.length →
      tasks.length + 1 ≤ fuel + progress →
      (importLoop g fuel iter progress tasks).2.2 = true ∧
      1 ≤ (importLoop g fuel iter progress tasks).1.length ∧
      (importLoop g fuel iter progress tasks).1.length + progress ≤
        tasks.length + 1 ∧
      List.Chain' (· < ·)
        (progress :: (importLoop g fuel iter progress tasks).1.dropLast) := by
  induction fuel with
  | zero =>
    intro iter progress tasks hp hf
    omega
  | succ fuel ih =>
    intro iter progress tasks hp hf
    have hlen : (iterOnce (g iter) tasks).length = tasks.length :=
      length_iterOnceAux (g iter) 0 tasks
    have hcount : countResolved (iterOnce (g iter) tasks) ≤ tasks.length := by
      calc countResolved (iterOnce (g iter) tasks) ≤ (iterOnce (g iter) tasks).length :=
            List.count_le_length _ _
        _ = tasks.length := hlen
    by_cases hbr : countResolved (iterOnce (g iter) tasks) ≤ progress
    · have hres : importLoop g (fuel + 1) iter progress tasks =
          ([countResolved (iterOnce (g iter) tasks)], iterOnce (g iter) tasks,
            true) := by
        simp [importLoop, hbr]
      rw [hres]
      refine ⟨rfl, by simp, ?_, ?_⟩
      · simp only [List.length_singleton]
        omega
      · simp [List.dropLast_single]
    · have hres : importLoop g (fuel + 1) iter progress tasks =
          (countResolved (iterOnce (g iter) tasks) ::
            (importLoop g fuel (iter + 1) (countResolved (iterOnce (g iter) tasks))
              (iterOnce (g iter) tasks)).1,
           (importLoop g fuel (iter + 1) (countResolved (iterOnce (g iter) tasks))
              (iterOnce (g iter) tasks)).2.1,
           (importLoop g fuel (iter + 1) (countResolved (iterOnce (g iter) tasks))
              (iterOnce (g iter) tasks)).2.2) := by
        simp [importLoop, hbr]
      have hrec := ih (iter + 1) (countResolved (iterOnce (g iter) tasks))
        (iterOnce (g iter) tasks) (le_of_eq_of_le rfl (hlen ▸ hcount))
        (by omega)
      obtain ⟨hb, h1, hle, hch⟩ := hrec
      rw [hlen] at hle
      rw [hres]
      refine ⟨hb, by simp, ?_, ?_⟩
      · simp only [List.length_cons]
        omega
      · have hne : (importLoop g fuel (iter + 1)
            (countResolved (iterOnce (g iter) tasks))
            (iterOnce (g iter) tasks)).1 ≠ [] := by
          intro hnil
          rw [hnil] at h1
          simp at h1
        simp only [List.dropLast_cons_of_ne_nil hne]
        exact List.Chain'.cons (by omega) hch

/-- C7 (amended): for every oracle behaviour the per-scope fixpoint loop
reaches its `break` within `N + 1` iterations (`N` the scope's import
count, one final iteration to observe the lack of progress), and every
iteration before the last strictly increases the resolved count, i.e.
newly resolves at least one import. -/
theorem import_fixpoint_terminates (g : Nat → Nat → Bool) (tasks : List Bool) :
    (pass_2_fixpoint g tasks).2.2 = true ∧
    (pass_2_fixpoint g tasks).1.length ≤ tasks.length + 1 ∧
    List.Chain' (· < ·) (0 :: (pass_2_fixpoint g tasks).1.dropLast) := by
  have h := importLoop_spec g (tasks.length + 1) 0 0 tasks (by omega) (by omega)
  simp only [pass_2_fixpoint]
  exact ⟨h.1, by have := h.2.2.1; omega, h.2.2.2⟩

/-- C7 counterexample: a single import that resolves in the first sweep
still costs two loop iterations — one to resolve it and one to detect the
fixpoint — exceeding the claimed bound of `N = 1` iterations. -/
theorem import_fixpoint_exceeds_import_count :
    (pass_2_fixpoint (fun _ _ => true) [false]).1.length = 2 ∧
    ¬((pass_2_fixpoint (fun _ _ => true) [false]).1.length ≤ [false].length) := by
  constructor
  · rfl
  · decide

/-- C1: the stability half of the intern contract fails at a hash collision.
`"aaa2"` and `"aacp"` have the same djb2 hash; interning `"aaa2"`, then the
colliding `"aacp"` (which overwrites the hash slot), then `"aaa2"` again
re-issues a fresh id `2` for `"aaa2"` instead of its original id `0`, so
`intern(s) = intern(s)` does not hold for the pool's lifetime. -/
theorem intern_id_reissued_on_hash_collision :
    hash_djb2 "aaa2" = hash_djb2 "aacp" ∧ "aaa2" ≠ "aacp" ∧
    (InternPool.new.intern "aaa2").1 = 0 ∧
    ((InternPool.new.intern "aaa2").2.intern "aacp").1 = 1 ∧
    (((InternPool.new.intern "aaa2").2.intern "aacp").2.intern "aaa2").1 = 2 := by
  decide

end Lang
